import Mathlib

/-!
Verification development for the candlestick-chart plugin backend
(webapps/candlestick-chart/backend.py).

The backend consumes a pandas DataFrame together with a JSON list of
filter specifications and an aggregation configuration, and produces the
cumulative-range rows used by a candlestick chart.  We embed the code
shallowly:

* a table is a list of rows; a row is an association list from column
  names to cells;
* a cell is a typed scalar: missing (NaN/NaT), a number (modelled as an
  integer, exact arithmetic), a string, or a timestamp.  A timestamp
  records the epoch milliseconds together with the date parts that the
  pandas dt accessor reports (quarter is derived from the month, exactly
  as pandas derives it);
* a pandas boolean mask over the current table is a predicate on rows;
* Python values compared by pandas Series.isin keep their dynamic type:
  an integer cell never equals a string value (pandas performs no
  coercion between int64 data and str members), which the Cell type
  captures by constructor disjointness;
* fallible code (filters that raise) returns Except String.

JSON object keys are always strings, so the excludedValues maps of the
filter specifications carry String keys, matching the int(k) conversions
that the source applies in some, but not all, branches.
-/

namespace Candlestick

/-- Date parts of one timestamp as reported by the pandas dt accessor.
The quarter is derived from the month the way pandas derives it. -/
structure PdTimestamp where
  epochMs : Int
  year : Nat
  month : Nat
  week : Nat
  day : Nat
  dayofweek : Nat
  hour : Nat
deriving DecidableEq, Repr

/-- Quarter of the year, derived from the month as pandas does. -/
def PdTimestamp.quarter (t : PdTimestamp) : Nat := (t.month - 1) / 3 + 1

/-- One scalar of a table: missing (NaN/NaT), numeric, string, or
timestamp.  Distinct constructors model the dynamic typing of pandas
values: an int64 value is never equal to a str value. -/
inductive Cell where
  | null : Cell
  | num : Int → Cell
  | str : String → Cell
  | date : PdTimestamp → Cell
deriving DecidableEq, Repr

/-- A row of a DataFrame: an association list from column name to cell.
A column that is absent reads as a missing value. -/
abbrev Row : Type := List (String × Cell)

/-- Reading a column of a row. -/
def Row.get (r : Row) (c : String) : Cell :=
  ((r.find? (fun p => p.1 == c)).map Prod.snd).getD Cell.null

/-- A DataFrame: the ordered list of its rows. -/
abbrev Table : Type := List Row

/-- A pandas boolean mask, one Boolean per row of the current table. -/
abbrev Cond : Type := Row → Bool

/-- One filter specification, as decoded from the JSON request: a dict
with a filterType tag and the fields the branches read.  Keys of
excludedValues are JSON object keys, hence strings.  Optional numeric
bounds are none when the JSON field is null. -/
structure Filter where
  filterType : String
  column : String
  columnType : String
  dateFilterType : String
  minValue : Option Int
  maxValue : Option Int
  excludedValues : List (String × Bool)
deriving DecidableEq, Repr

/-- Python truthiness of an optional numeric field: None and 0 are
falsy, every other number is truthy. -/
def truthy : Option Int → Bool
  | none => false
  | some v => v != 0

/-- Comparison df[column] >= m of a cell with a number: false on
missing values (NaN comparisons are false in pandas). -/
def cellGE (c : Cell) (m : Int) : Bool :=
  match c with
  | Cell.num x => decide (m ≤ x)
  | _ => false

/-- Comparison df[column] <= m of a cell with a number: false on
missing values. -/
def cellLE (c : Cell) (m : Int) : Bool :=
  match c with
  | Cell.num x => decide (x ≤ m)
  | _ => false

/-- numerical_filter of backend.py: emits a greater-or-equal condition
when minValue is truthy and a less-or-equal condition when maxValue is
truthy. -/
def numerical_filter (df : Table) (f : Filter) : List Cond :=
  let _ := df
  (if truthy f.minValue then
    [fun r => cellGE (Row.get r f.column) (f.minValue.getD 0)] else [])
  ++ (if truthy f.maxValue then
    [fun r => cellLE (Row.get r f.column) (f.maxValue.getD 0)] else [])

/-- The reserved key of excludedValues denoting a missing value. -/
def noValueKey : String := "___dku_no_value___"

/-- Test for a missing cell, as pandas isnull reports it. -/
def isNullCell (c : Cell) : Bool :=
  match c with
  | Cell.null => true
  | _ => false

/-- Membership of a cell in a list of numbers, as pandas Series.isin
decides it: only a numeric cell can match, a missing value never
matches. -/
def cellIsInNums (c : Cell) (ns : List Int) : Bool :=
  match c with
  | Cell.num x => ns.contains x
  | _ => false

/-- Membership of a cell in a list of strings, as pandas Series.isin
decides it: only a string cell can match. -/
def cellIsInStrs (c : Cell) (ss : List String) : Bool :=
  match c with
  | Cell.str s => ss.contains s
  | _ => false

/-- Conversion of every key of a list to a number; none when some key
is not a numeral. -/
def parseAll : List String → Option (List Int)
  | [] => some []
  | s :: rest =>
    match String.toInt? s, parseAll rest with
    | some v, some vs => some (v :: vs)
    | _, _ => none

/-- The float conversion applied by alphanum_filter to excluded values
of a numerical column; numbers are modelled as integers, and a key that
is not a numeral raises, as float(x) does. -/
def parseNums (l : List String) : Except String (List Int) :=
  match parseAll l with
  | some xs => Except.ok xs
  | none => Except.error "could not convert string to float"

/-- alphanum_filter of backend.py: collects the keys of excludedValues
with a true flag; the reserved no-value key contributes a not-null
condition, the remaining keys an is-not-in condition, with the keys
converted to numbers when the column is numerical. -/
def alphanum_filter (df : Table) (f : Filter) : Except String (List Cond) :=
  let _ := df
  let excluded_values : List String :=
    ((f.excludedValues.filter (fun kv => kv.1 ≠ noValueKey && kv.2)).map (fun kv => kv.1))
  let conditions : List Cond :=
    if f.excludedValues.any (fun kv => kv.1 == noValueKey && kv.2) then
      [fun r => !(isNullCell (Row.get r f.column))]
    else []
  if excluded_values.length > 0 then
    if f.columnType = "NUMERICAL" then
      match parseNums excluded_values with
      | Except.ok nums =>
          Except.ok (conditions ++ [fun r => !(cellIsInNums (Row.get r f.column) nums)])
      | Except.error e => Except.error e
    else
      Except.ok (conditions ++ [fun r => !(cellIsInStrs (Row.get r f.column) excluded_values)])
  else
    Except.ok conditions

/-- Comparison of a timestamp cell with an epoch-millisecond bound,
df[column] >= pd.Timestamp(m, unit=ms); false on missing values. -/
def tsGE (c : Cell) (m : Int) : Bool :=
  match c with
  | Cell.date t => decide (m ≤ t.epochMs)
  | _ => false

/-- Comparison of a timestamp cell with an epoch-millisecond bound,
df[column] <= pd.Timestamp(m, unit=ms); false on missing values. -/
def tsLE (c : Cell) (m : Int) : Bool :=
  match c with
  | Cell.date t => decide (t.epochMs ≤ m)
  | _ => false

/-- date_range_filter of backend.py: like numerical_filter but on
timestamps. -/
def date_range_filter (df : Table) (f : Filter) : List Cond :=
  let _ := df
  (if truthy f.minValue then
    [fun r => tsGE (Row.get r f.column) (f.minValue.getD 0)] else [])
  ++ (if truthy f.maxValue then
    [fun r => tsLE (Row.get r f.column) (f.maxValue.getD 0)] else [])

/-- The int(k) conversion applied to excluded date keys; a key that is
not a numeral raises, as int(k) does. -/
def parseInts (l : List String) : Except String (List Int) :=
  match parseAll l with
  | some xs => Except.ok xs
  | none => Except.error "invalid literal for int() with base 10"

/-- special_date_filter of backend.py.  The keys of excludedValues with
a true flag form the excluded set.  The quarter, month, week and
day-of-month branches convert each key with int(k)+1 and compare
numbers with numbers.  The year, day-of-week and hour-of-day branches
pass the string keys to Series.isin unconverted, where they are
compared against int64 date parts with the typed equality of pandas:
an integer is never equal to a string, which the Cell membership test
makes explicit.  The unknown-date-filter branch raises only when the
excluded set is non-empty. -/
def special_date_filter (df : Table) (f : Filter) : Except String (List Cond) :=
  let _ := df
  let excluded_values : List String :=
    (f.excludedValues.filter (fun kv => kv.2)).map (fun kv => kv.1)
  if excluded_values.length > 0 then
    if f.dateFilterType = "YEAR" then
      Except.ok [fun r =>
        match Row.get r f.column with
        | Cell.date t => !((excluded_values.map Cell.str).contains (Cell.num (Int.ofNat t.year)))
        | _ => true]
    else if f.dateFilterType = "QUARTER_OF_YEAR" then
      match parseInts excluded_values with
      | Except.ok ks => Except.ok [fun r =>
          match Row.get r f.column with
          | Cell.date t => !((ks.map (fun k => k + 1)).contains (Int.ofNat (PdTimestamp.quarter t)))
          | _ => true]
      | Except.error e => Except.error e
    else if f.dateFilterType = "MONTH_OF_YEAR" then
      match parseInts excluded_values with
      | Except.ok ks => Except.ok [fun r =>
          match Row.get r f.column with
          | Cell.date t => !((ks.map (fun k => k + 1)).contains (Int.ofNat t.month))
          | _ => true]
      | Except.error e => Except.error e
    else if f.dateFilterType = "WEEK_OF_YEAR" then
      match parseInts excluded_values with
      | Except.ok ks => Except.ok [fun r =>
          match Row.get r f.column with
          | Cell.date t => !((ks.map (fun k => k + 1)).contains (Int.ofNat t.week))
          | _ => true]
      | Except.error e => Except.error e
    else if f.dateFilterType = "DAY_OF_MONTH" then
      match parseInts excluded_values with
      | Except.ok ks => Except.ok [fun r =>
          match Row.get r f.column with
          | Cell.date t => !((ks.map (fun k => k + 1)).contains (Int.ofNat t.day))
          | _ => true]
      | Except.error e => Except.error e
    else if f.dateFilterType = "DAY_OF_WEEK" then
      Except.ok [fun r =>
        match Row.get r f.column with
        | Cell.date t => !((excluded_values.map Cell.str).contains (Cell.num (Int.ofNat t.dayofweek)))
        | _ => true]
    else if f.dateFilterType = "HOUR_OF_DAY" then
      Except.ok [fun r =>
        match Row.get r f.column with
        | Cell.date t => !((excluded_values.map Cell.str).contains (Cell.num (Int.ofNat t.hour)))
        | _ => true]
    else
      Except.error "Unknown date filter."
  else
    Except.ok []

/-- date_filter of backend.py: dispatch between the range filter and
the date-part filter. -/
def date_filter (df : Table) (f : Filter) : Except String (List Cond) :=
  if f.dateFilterType = "RANGE" then
    Except.ok (date_range_filter df f)
  else
    special_date_filter df f

/-- apply_filter_conditions of backend.py: no condition leaves the
table unchanged, a single condition restricts the table to it, several
conditions are folded with the elementwise AND of boolean Series before
restricting the table. -/
def apply_filter_conditions (df : Table) (conditions : List Cond) : Table :=
  match conditions with
  | [] => df
  | [c] => List.filter c df
  | c :: rest =>
      List.filter (rest.foldl (fun c1 c2 => fun r => c1 r && c2 r) c) df

/-- One iteration of the loop of filter_dataframe: dispatch on
filterType, apply the conditions to the table filtered so far, and wrap
any raised error with the column of the offending filter.  A filterType
that matches no branch leaves the table unchanged. -/
def filterStep (df : Table) (f : Filter) : Except String Table :=
  let inner : Except String Table :=
    if f.filterType = "NUMERICAL_FACET" then
      Except.ok (apply_filter_conditions df (numerical_filter df f))
    else if f.filterType = "ALPHANUM_FACET" then
      (alphanum_filter df f).map (fun cs => apply_filter_conditions df cs)
    else if f.filterType = "DATE_FACET" then
      (date_filter df f).map (fun cs => apply_filter_conditions df cs)
    else
      Except.ok df
  match inner with
  | Except.ok d => Except.ok d
  | Except.error e =>
      Except.error ("Error with filter on column " ++ f.column ++ " - " ++ e)

/-- The loop of filter_dataframe: each filter is applied to the table
as filtered by the previous ones; a raised error aborts the loop. -/
def applyFilters (df : Table) (filters : List Filter) : Except String Table :=
  match filters with
  | [] => Except.ok df
  | f :: rest => (filterStep df f).bind (fun d => applyFilters d rest)

/-- filter_dataframe of backend.py: run every filter in order, then
raise when the filtered table has no row left. -/
def filter_dataframe (df : Table) (filters : List Filter) : Except String Table :=
  (applyFilters df filters).bind (fun d =>
    if (List.isEmpty d) then Except.error "Dataframe is empty after filtering"
    else Except.ok d)

/-!
The aggregation stage, create_candlestick_df of backend.py.  Its input
table holds the category and value columns only, so we embed it as a
list of category-value pairs; the value column is numeric (the route
checks this before the call), and numbers are modelled as integers.
-/

/-- One row of the groupby result of create_candlestick_df: a distinct
category together with the sum and the count of its values. -/
structure AggRow where
  category : String
  sum : Int
  count : Nat
deriving DecidableEq, Repr

/-- The descending-count comparison used by sort_values on the count
column (ascending=False). -/
def countGe (a b : AggRow) : Prop := b.count ≤ a.count

instance : DecidableRel countGe :=
  fun a b => inferInstanceAs (Decidable (b.count ≤ a.count))

instance : IsTotal AggRow countGe :=
  ⟨fun a b => Nat.le_total b.count a.count⟩

instance : IsTrans AggRow countGe :=
  ⟨fun _ _ _ hab hbc => le_trans hbc hab⟩

/-- Lexicographic code-point comparison of two character lists: the
order Python uses on str values, written structurally. -/
def listCharLe : List Char → List Char → Bool
  | [], _ => true
  | _ :: _, [] => false
  | a :: as, b :: bs =>
    if a.toNat < b.toNat then true
    else if b.toNat < a.toNat then false
    else listCharLe as bs

lemma listCharLe_total : ∀ as bs : List Char,
    listCharLe as bs = true ∨ listCharLe bs as = true := by
  intro as
  induction as with
  | nil => intro bs; exact Or.inl rfl
  | cons a as ih =>
    intro bs
    cases bs with
    | nil => exact Or.inr rfl
    | cons b bs =>
      simp only [listCharLe]
      rcases Nat.lt_trichotomy a.toNat b.toNat with h | h | h
      · simp [h]
      · have h1 : ¬ a.toNat < b.toNat := by omega
        have h2 : ¬ b.toNat < a.toNat := by omega
        simpa [h1, h2] using ih bs
      · simp [h, Nat.lt_asymm h]

lemma listCharLe_trans : ∀ as bs cs : List Char,
    listCharLe as bs = true → listCharLe bs cs = true →
    listCharLe as cs = true := by
  intro as
  induction as with
  | nil => intro bs cs _ _; rfl
  | cons a as ih =>
    intro bs cs h1 h2
    cases bs with
    | nil => simp [listCharLe] at h1
    | cons b bs =>
      cases cs with
      | nil => simp [listCharLe] at h2
      | cons c cs =>
        simp only [listCharLe] at h1 h2 ⊢
        split_ifs at h1 h2 ⊢ <;> first
          | rfl
          | omega
          | (exact ih bs cs h1 h2)

/-- The ascending order on strings used for the sorted group keys of a
pandas groupby. -/
def strLe (a b : String) : Prop := listCharLe a.data b.data = true

instance : DecidableRel strLe :=
  fun a b => inferInstanceAs (Decidable (listCharLe a.data b.data = true))

instance : IsTotal String strLe :=
  ⟨fun a b => listCharLe_total a.data b.data⟩

instance : IsTrans String strLe :=
  ⟨fun a b c => listCharLe_trans a.data b.data c.data⟩

/-- The descending-value comparison used by sort_values on the value
column (ascending=False). -/
def valGe (a b : String × Int) : Prop := b.2 ≤ a.2

instance : DecidableRel valGe :=
  fun a b => inferInstanceAs (Decidable (b.2 ≤ a.2))

instance : IsTotal (String × Int) valGe :=
  ⟨fun a b => Int.le_total b.2 a.2⟩

instance : IsTrans (String × Int) valGe :=
  ⟨fun _ _ _ hab hbc => le_trans hbc hab⟩

/-- The distinct keys of a groupby, in the ascending order that pandas
produces (groupby sorts its group keys). -/
def sortedKeys (l : List String) : List String :=
  List.insertionSort strLe l.dedup

/-- The distinct rank keys of the rank groupby, in ascending order. -/
def sortedNatKeys (l : List Nat) : List Nat :=
  List.insertionSort (fun a b : Nat => a ≤ b) l.dedup

/-- Lines 119-120 of backend.py: group by the category column and take
the sum and the count of the value column per distinct category. -/
def groupbyAgg (rows : List (String × Int)) : List AggRow :=
  (sortedKeys (rows.map Prod.fst)).map (fun c =>
    { category := c
      sum := ((rows.filter (fun p => p.1 = c)).map Prod.snd).sum
      count := (rows.filter (fun p => p.1 = c)).length })

/-- Line 130 of backend.py: every position at or beyond the cutoff gets
the same rank. -/
def rankClamp (maxDisplayed i : Nat) : Nat :=
  if i < maxDisplayed - 1 then i else maxDisplayed - 1

/-- The min aggregation over the category labels of one rank group. -/
def minLabel (l : List String) : String :=
  match l with
  | [] => ""
  | x :: xs => xs.foldl (fun a b => if listCharLe a.data b.data then a else b) x

/-- Lines 124-138 of backend.py: when there are more distinct
categories than max_displayed_values, sort them by descending count,
clamp the ranks, and either rename the tail to the literal category
others and re-group by rank (summing the sums, taking the minimal
label), or truncate to the first max_displayed_values rows.  The result
keeps the category and the summed value. -/
def collapse (agg : List AggRow) (maxDisplayed : Nat) (groupOthers : Bool) :
    List (String × Int) :=
  if agg.length > maxDisplayed then
    let sorted := List.insertionSort countGe agg
    if groupOthers then
      let ranked : List (Nat × String × Int) := sorted.enum.map (fun p =>
        (rankClamp maxDisplayed p.1,
         if p.1 < maxDisplayed - 1 then p.2.category else "others",
         p.2.sum))
      (sortedNatKeys (ranked.map (fun t => t.1))).map (fun rk =>
        (minLabel ((ranked.filter (fun t => t.1 = rk)).map (fun t => t.2.1)),
         ((ranked.filter (fun t => t.1 = rk)).map (fun t => t.2.2)).sum))
    else
      (sorted.take maxDisplayed).map (fun a => (a.category, a.sum))
  else
    agg.map (fun a => (a.category, a.sum))

/-- Running sums with an accumulator: the cumsum of a pandas
Series. -/
def cumsumFrom (acc : Int) : List Int → List Int
  | [] => []
  | x :: xs => (acc + x) :: cumsumFrom (acc + x) xs

/-- The cumsum of a pandas Series. -/
def cumsum (l : List Int) : List Int := cumsumFrom 0 l

/-- The shift(1) of a Series column followed by writing 0 into row 0:
every value moves down one row and the first row becomes 0. -/
def shiftStarts (maxes : List Int) : List Int :=
  match maxes with
  | [] => []
  | _ :: _ => 0 :: maxes.dropLast

/-- Lines 140-148 of backend.py: sort by descending value, copy the
value column into max, shift the value column down by one row writing 0
into row 0, and take column-wise cumulative sums; each output row is
the category with its range start and range end. -/
def reshape (pairs : List (String × Int)) : List (String × Int × Int) :=
  List.zipWith (fun (p : String × Int) (se : Int × Int) => (p.1, se))
    (List.insertionSort valGe pairs)
    ((cumsum (shiftStarts ((List.insertionSort valGe pairs).map (fun p => p.2)))).zip
      (cumsum ((List.insertionSort valGe pairs).map (fun p => p.2))))

/-- create_candlestick_df of backend.py: group and sum per category,
collapse or truncate the tail, and reshape into cumulative ranges. -/
def create_candlestick_df (rows : List (String × Int)) (maxDisplayed : Nat)
    (groupOthers : Bool) : List (String × Int × Int) :=
  reshape (collapse (groupbyAgg rows) maxDisplayed groupOthers)

/-- The aggregated rows in the descending-value order of the final
sort: the ordered aggregated values that drive the output rows. -/
def sortedAggregated (rows : List (String × Int)) (maxDisplayed : Nat)
    (groupOthers : Bool) : List (String × Int) :=
  List.insertionSort valGe (collapse (groupbyAgg rows) maxDisplayed groupOthers)

/-- The sum of the value column over every row of the input table. -/
def totalValue (rows : List (String × Int)) : Int :=
  (rows.map Prod.snd).sum

example : create_candlestick_df [("b", 2), ("a", 1)] 5 false
    = [("b", 0, 2), ("a", 2, 3)] := by decide

/-!
List utilities used by the proofs below: positional access through getD,
running sums, and the interaction of take with dropLast.
-/

lemma getD_in_bounds_map_snd (l : List (String × Int)) :
    ∀ i, i < l.length →
      (l.map (fun p => p.2)).getD i 0 = (l.getD i ("", 0)).2 := by
  induction l with
  | nil => intro i h; simp at h
  | cons x xs ih =>
    intro i h
    cases i with
    | zero => simp
    | succ j =>
      simp only [List.map_cons, List.getD_cons_succ]
      exact ih j (by simpa using h)

lemma cumsumFrom_length (acc : Int) (l : List Int) :
    (cumsumFrom acc l).length = l.length := by
  induction l generalizing acc with
  | nil => rfl
  | cons x xs ih => simp [cumsumFrom, ih]

lemma cumsum_length (l : List Int) : (cumsum l).length = l.length :=
  cumsumFrom_length 0 l

lemma cumsumFrom_getD (l : List Int) :
    ∀ (acc : Int) (i : Nat), i < l.length →
      (cumsumFrom acc l).getD i 0 = acc + (l.take (i + 1)).sum := by
  induction l with
  | nil => intro acc i h; simp at h
  | cons x xs ih =>
    intro acc i h
    cases i with
    | zero => simp [cumsumFrom]
    | succ j =>
      simp only [cumsumFrom, List.getD_cons_succ, List.take_succ_cons,
        List.sum_cons]
      rw [ih (acc + x) j (by simpa using h)]
      ring

lemma cumsum_getD (l : List Int) (i : Nat) (h : i < l.length) :
    (cumsum l).getD i 0 = (l.take (i + 1)).sum := by
  simpa using cumsumFrom_getD l 0 i h

lemma sum_take_succ_getD (l : List Int) (i : Nat) (h : i < l.length) :
    (l.take (i + 1)).sum = (l.take i).sum + l.getD i 0 := by
  rw [List.sum_take_succ l i h]
  congr 1
  simp [List.getD_eq_getElem?_getD, List.getElem?_eq_getElem h]

lemma dropLast_take (l : List Int) :
    ∀ i, i < l.length → l.dropLast.take i = l.take i := by
  induction l with
  | nil => intro i h; simp at h
  | cons x xs ih =>
    intro i h
    cases xs with
    | nil =>
      cases i with
      | zero => simp
      | succ j =>
        simp only [List.length_cons, List.length_nil] at h
        omega
    | cons y ys =>
      cases i with
      | zero => simp
      | succ j =>
        simp only [List.dropLast_cons_of_ne_nil (List.cons_ne_nil y ys),
          List.take_succ_cons, List.cons.injEq, true_and]
        exact ih j (by simpa using h)

lemma getD_zipWith {α β γ : Type} (g : α → β → γ) :
    ∀ (l1 : List α) (l2 : List β) (i : Nat), i < l1.length → i < l2.length →
      ∀ (d : γ) (d1 : α) (d2 : β),
      (List.zipWith g l1 l2).getD i d = g (l1.getD i d1) (l2.getD i d2) := by
  intro l1
  induction l1 with
  | nil => intro l2 i h1 _ _ _ _; simp at h1
  | cons x xs ih =>
    intro l2 i h1 h2 d d1 d2
    cases l2 with
    | nil => simp at h2
    | cons y ys =>
      cases i with
      | zero => simp
      | succ j =>
        simp only [List.zipWith_cons_cons, List.getD_cons_succ]
        exact ih ys j (by simpa using h1) (by simpa using h2) d d1 d2

/-!
Index characterization of the cumulative reshape: at every valid index,
the output row carries the category of the sorted pair, the sum of the
values strictly before it, and the sum of the values up to and
including it.
-/

lemma shiftStarts_length (maxes : List Int) :
    (shiftStarts maxes).length = maxes.length := by
  cases maxes with
  | nil => rfl
  | cons m ms => simp [shiftStarts]

lemma reshape_length (pairs : List (String × Int)) :
    (reshape pairs).length = pairs.length := by
  have hlen : (List.insertionSort valGe pairs).length = pairs.length :=
    List.length_insertionSort valGe pairs
  simp only [reshape, List.length_zipWith, List.length_zip, cumsum_length,
    shiftStarts_length, List.length_map, hlen]
  omega

lemma reshape_getD (pairs : List (String × Int)) (i : Nat)
    (h : i < pairs.length) :
    (reshape pairs).getD i ("", 0, 0)
      = (((List.insertionSort valGe pairs).getD i ("", 0)).1,
         (((List.insertionSort valGe pairs).map (fun p => p.2)).take i).sum,
         (((List.insertionSort valGe pairs).map (fun p => p.2)).take (i + 1)).sum) := by
  have hlen : (List.insertionSort valGe pairs).length = pairs.length :=
    List.length_insertionSort valGe pairs
  set sorted := List.insertionSort valGe pairs with hsorted
  set maxes := sorted.map (fun p => p.2) with hmaxes
  have hmlen : maxes.length = pairs.length := by
    simp [hmaxes, hlen]
  have hstarts : shiftStarts maxes = 0 :: maxes.dropLast := by
    cases hm : maxes with
    | nil =>
      rw [hm] at hmlen
      simp at hmlen
      omega
    | cons m ms => rfl
  have hstartslen : (shiftStarts maxes).length = pairs.length := by
    rw [shiftStarts_length, hmlen]
  show (List.zipWith (fun (p : String × Int) (se : Int × Int) => (p.1, se))
      sorted ((cumsum (shiftStarts maxes)).zip (cumsum maxes))).getD i ("", 0, 0)
    = ((sorted.getD i ("", 0)).1, (maxes.take i).sum, (maxes.take (i + 1)).sum)
  have hz :
      (((cumsum (shiftStarts maxes)).zip (cumsum maxes)).getD i ((0 : Int), (0 : Int)))
        = ((cumsum (shiftStarts maxes)).getD i 0, (cumsum maxes).getD i 0) :=
    getD_zipWith Prod.mk (cumsum (shiftStarts maxes)) (cumsum maxes) i
      (by rw [cumsum_length, hstartslen]; exact h)
      (by rw [cumsum_length, hmlen]; exact h) ((0 : Int), (0 : Int)) 0 0
  rw [getD_zipWith (fun (p : String × Int) (se : Int × Int) => (p.1, se))
    sorted ((cumsum (shiftStarts maxes)).zip (cumsum maxes)) i
    (by rw [hlen]; exact h)
    (by rw [List.length_zip, cumsum_length, cumsum_length, hstartslen, hmlen]; simpa using h)
    ("", 0, 0) ("", 0) ((0 : Int), (0 : Int))]
  rw [hz]
  rw [cumsum_getD _ i (by rw [hstartslen]; exact h)]
  rw [cumsum_getD _ i (by rw [hmlen]; exact h)]
  rw [hstarts, List.take_succ_cons, List.sum_cons]
  rw [dropLast_take maxes i (by rw [hmlen]; exact h)]
  simp

example : create_candlestick_df [("a", 10), ("b", 30), ("c", 5), ("d", 5)] 2 true
    = [("others", 0, 40), ("a", 40, 50)] := by decide

example :
    create_candlestick_df
      [("a", 1), ("a", 1), ("a", 1), ("b", 1), ("b", 1), ("c", 100)] 2 false
    = [("a", 0, 3), ("b", 3, 5)] := by decide

/-!
The Conjunction Engine: relating apply_filter_conditions to the
pointwise conjunction of its masks.
-/

lemma foldl_and_apply (rest : List Cond) (c : Cond) (r : Row) :
    (rest.foldl (fun c1 c2 => fun r => c1 r && c2 r) c) r
      = (c r && rest.all (fun d => d r)) := by
  induction rest generalizing c with
  | nil => simp
  | cons d rest ih =>
    simp only [List.foldl_cons, List.all_cons]
    rw [ih]
    simp [Bool.and_assoc]

lemma apply_filter_conditions_eq_filter (df : Table) (conds : List Cond) :
    apply_filter_conditions df conds
      = df.filter (fun r => conds.all (fun c => c r)) := by
  match conds with
  | [] =>
    simp [apply_filter_conditions]
  | [c] =>
    simp only [apply_filter_conditions]
    apply List.filter_congr
    intro r _
    simp
  | c :: d :: rest =>
    simp only [apply_filter_conditions]
    apply List.filter_congr
    intro r _
    rw [foldl_and_apply]
    simp

lemma mem_apply_filter_conditions (df : Table) (conds : List Cond) (r : Row) :
    r ∈ apply_filter_conditions df conds
      ↔ r ∈ df ∧ conds.all (fun c => c r) = true := by
  rw [apply_filter_conditions_eq_filter]
  exact List.mem_filter

/-- C9: the Conjunction Engine is the identity on an empty mask list,
restricts the table to a single mask, and in general restricts the
table to the left-to-right AND-fold of all masks; hence its result is
exactly the rows satisfying every mask, and applying zero filters is
the identity. -/
theorem apply_filter_conditions_conjunction (df : Table) (conds : List Cond) :
    apply_filter_conditions df ([] : List Cond) = df ∧
    (∀ c : Cond, apply_filter_conditions df [c] = df.filter c) ∧
    apply_filter_conditions df conds
      = df.filter (fun r => conds.all (fun c => c r)) ∧
    (∀ r : Row, r ∈ apply_filter_conditions df conds
       ↔ r ∈ df ∧ conds.all (fun c => c r) = true) := by
  refine ⟨rfl, fun c => rfl, apply_filter_conditions_eq_filter df conds,
    fun r => mem_apply_filter_conditions df conds r⟩

/-- C4: a numeric-range filter with only the lower bound set (a truthy
minimum, no maximum) keeps exactly rows at or above the bound: every
surviving row satisfies the bound and the result is a sublist of the
input table. -/
theorem numerical_min_only (df : Table) (f : Filter) (m : Int)
    (hmin : f.minValue = some m) (hm : m ≠ 0) (hmax : f.maxValue = none) :
    (∀ r ∈ apply_filter_conditions df (numerical_filter df f),
        cellGE (Row.get r f.column) m = true) ∧
    (apply_filter_conditions df (numerical_filter df f)).Sublist df := by
  have ht : truthy f.minValue = true := by
    simp [hmin, truthy, hm]
  have hf : truthy f.maxValue = false := by
    simp [hmax, truthy]
  have hconds : numerical_filter df f
      = [fun r => cellGE (Row.get r f.column) (f.minValue.getD 0)] := by
    simp [numerical_filter, ht, hf]
  constructor
  · intro r hr
    rw [hconds, mem_apply_filter_conditions] at hr
    have h2 := hr.2
    simp only [List.all_cons, List.all_nil, Bool.and_true] at h2
    simpa [hmin] using h2
  · rw [apply_filter_conditions_eq_filter]
    exact List.filter_sublist df

def c4df : Table := [[("v", Cell.num 5)], [("v", Cell.num 1)]]

def c4f : Filter :=
  { filterType := "NUMERICAL_FACET", column := "v", columnType := "NUMERICAL",
    dateFilterType := "", minValue := some 3, maxValue := none,
    excludedValues := [] }

/-- Witness for C4 at a concrete table and filter. -/
theorem numerical_min_only_witness :
    c4f.minValue = some 3 ∧ (3 : Int) ≠ 0 ∧ c4f.maxValue = none ∧
    ((∀ r ∈ apply_filter_conditions c4df (numerical_filter c4df c4f),
        cellGE (Row.get r c4f.column) 3 = true) ∧
     (apply_filter_conditions c4df (numerical_filter c4df c4f)).Sublist c4df) :=
  ⟨rfl, by decide, rfl, numerical_min_only c4df c4f 3 rfl (by decide) rfl⟩

/-- C5: the numeric-range evaluator restricts the table exactly by the
bounds whose optional value is truthy, and a bound that is exactly 0 is
treated as absent: it contributes no mask and the table is not
restricted. -/
theorem numerical_filter_truthiness (df : Table) (f : Filter) :
    apply_filter_conditions df (numerical_filter df f)
      = df.filter (fun r =>
          (!truthy f.minValue || cellGE (Row.get r f.column) (f.minValue.getD 0)) &&
          (!truthy f.maxValue || cellLE (Row.get r f.column) (f.maxValue.getD 0))) ∧
    (f.minValue = some 0 →
       numerical_filter df f = numerical_filter df { f with minValue := none }) ∧
    (f.maxValue = some 0 →
       numerical_filter df f = numerical_filter df { f with maxValue := none }) ∧
    (f.minValue = some 0 → f.maxValue = some 0 →
       apply_filter_conditions df (numerical_filter df f) = df) := by
  refine ⟨?_, ?_, ?_, ?_⟩
  · rw [apply_filter_conditions_eq_filter]
    apply List.filter_congr
    intro r _
    by_cases h1 : truthy f.minValue <;> by_cases h2 : truthy f.maxValue <;>
      simp [numerical_filter, h1, h2]
  · intro h
    simp [numerical_filter, h, truthy]
  · intro h
    simp [numerical_filter, h, truthy]
  · intro h1 h2
    simp [numerical_filter, h1, h2, truthy, apply_filter_conditions]

def c5df : Table := [[("v", Cell.num (-7))]]

def c5f : Filter :=
  { filterType := "NUMERICAL_FACET", column := "v", columnType := "NUMERICAL",
    dateFilterType := "", minValue := some 0, maxValue := some 0,
    excludedValues := [] }

/-- Witness for C5 at a concrete table and a filter whose two bounds
are exactly 0. -/
theorem numerical_filter_truthiness_witness :
    apply_filter_conditions c5df (numerical_filter c5df c5f)
      = c5df.filter (fun r =>
          (!truthy c5f.minValue || cellGE (Row.get r c5f.column) (c5f.minValue.getD 0)) &&
          (!truthy c5f.maxValue || cellLE (Row.get r c5f.column) (c5f.maxValue.getD 0))) ∧
    (c5f.minValue = some 0 →
       numerical_filter c5df c5f = numerical_filter c5df { c5f with minValue := none }) ∧
    (c5f.maxValue = some 0 →
       numerical_filter c5df c5f = numerical_filter c5df { c5f with maxValue := none }) ∧
    (c5f.minValue = some 0 → c5f.maxValue = some 0 →
       apply_filter_conditions c5df (numerical_filter c5df c5f) = c5df) :=
  numerical_filter_truthiness c5df c5f

/-- C8: a filter specification whose filterType is none of the three
recognized tags is skipped: its step returns the table unchanged with
no error, and the whole pipeline behaves as if the entry were absent. -/
theorem unknown_filter_type_skipped (df : Table) (f : Filter) (fs : List Filter)
    (h1 : f.filterType ≠ "NUMERICAL_FACET")
    (h2 : f.filterType ≠ "ALPHANUM_FACET")
    (h3 : f.filterType ≠ "DATE_FACET") :
    filterStep df f = Except.ok df ∧
    applyFilters df (f :: fs) = applyFilters df fs := by
  have hstep : filterStep df f = Except.ok df := by
    simp [filterStep, h1, h2, h3]
  refine ⟨hstep, ?_⟩
  simp [applyFilters, hstep, Except.bind]

def c8f : Filter :=
  { filterType := "FOO", column := "c", columnType := "",
    dateFilterType := "", minValue := none, maxValue := none,
    excludedValues := [] }

/-- Witness for C8 at a concrete unrecognized filter type. -/
theorem unknown_filter_type_skipped_witness :
    c8f.filterType ≠ "NUMERICAL_FACET" ∧
    c8f.filterType ≠ "ALPHANUM_FACET" ∧
    c8f.filterType ≠ "DATE_FACET" ∧
    (filterStep ([] : Table) c8f = Except.ok ([] : Table) ∧
     applyFilters ([] : Table) (c8f :: []) = applyFilters ([] : Table) []) :=
  ⟨by decide, by decide, by decide,
    unknown_filter_type_skipped [] c8f [] (by decide) (by decide) (by decide)⟩

/-- C7: when the loop of filters succeeds with table d, the pipeline
raises the empty-after-filtering error exactly when d has zero rows and
returns d unchanged otherwise. -/
theorem filter_dataframe_empty_check (df : Table) (fs : List Filter) (d : Table)
    (h : applyFilters df fs = Except.ok d) :
    filter_dataframe df fs
      = (if d.isEmpty then Except.error "Dataframe is empty after filtering"
         else Except.ok d) ∧
    (d = [] →
       filter_dataframe df fs = Except.error "Dataframe is empty after filtering") ∧
    (d ≠ [] → filter_dataframe df fs = Except.ok d) := by
  have hmain : filter_dataframe df fs
      = (if d.isEmpty then Except.error "Dataframe is empty after filtering"
         else Except.ok d) := by
    simp [filter_dataframe, h, Except.bind]
  refine ⟨hmain, ?_, ?_⟩
  · intro hd
    rw [hmain, hd]
    simp
  · intro hd
    rw [hmain]
    simp [List.isEmpty_iff, hd]

/-- Witness for C7: an empty table passes through an empty filter list
and trips the empty-result error. -/
theorem filter_dataframe_empty_check_witness :
    applyFilters ([] : Table) [] = Except.ok ([] : Table) ∧
    (filter_dataframe ([] : Table) []
       = (if ([] : Table).isEmpty then
            Except.error "Dataframe is empty after filtering"
          else Except.ok ([] : Table)) ∧
     (([] : Table) = [] →
        filter_dataframe ([] : Table) []
          = Except.error "Dataframe is empty after filtering") ∧
     (([] : Table) ≠ [] → filter_dataframe ([] : Table) [] = Except.ok ([] : Table))) :=
  ⟨rfl, filter_dataframe_empty_check [] [] [] rfl⟩

/-!
Temporal filters: the unknown-subtype error (C3) and the inoperative
string-key comparisons (C2).
-/

lemma trueKeys_length_pos (l : List (String × Bool)) :
    (0 < ((l.filter (fun kv => kv.2)).map (fun kv => kv.1)).length)
      ↔ l.any (fun kv => kv.2) = true := by
  rw [List.length_map, List.length_pos]
  constructor
  · intro hne
    rcases List.exists_mem_of_ne_nil _ hne with ⟨kv, hkv⟩
    rcases (List.mem_filter).mp hkv with ⟨hmem, hflag⟩
    exact List.any_eq_true.mpr ⟨kv, hmem, hflag⟩
  · intro ha
    rcases List.any_eq_true.mp ha with ⟨kv, hmem, hflag⟩
    exact List.ne_nil_of_mem ((List.mem_filter).mpr ⟨hmem, hflag⟩)

/-- C3 amended: a temporal filter whose subtype is neither RANGE nor
one of the seven recognized date parts raises the unknown-date-filter
error exactly when some key of excludedValues has a true flag; with no
truthy key it returns no conditions and raises nothing. -/
theorem unknown_date_filter_conditional (df : Table) (f : Filter)
    (h0 : f.dateFilterType ≠ "RANGE")
    (h1 : f.dateFilterType ≠ "YEAR")
    (h2 : f.dateFilterType ≠ "QUARTER_OF_YEAR")
    (h3 : f.dateFilterType ≠ "MONTH_OF_YEAR")
    (h4 : f.dateFilterType ≠ "WEEK_OF_YEAR")
    (h5 : f.dateFilterType ≠ "DAY_OF_MONTH")
    (h6 : f.dateFilterType ≠ "DAY_OF_WEEK")
    (h7 : f.dateFilterType ≠ "HOUR_OF_DAY") :
    (f.excludedValues.any (fun kv => kv.2) = true →
       date_filter df f = Except.error "Unknown date filter.") ∧
    (f.excludedValues.any (fun kv => kv.2) = false →
       date_filter df f = Except.ok []) := by
  constructor
  · intro ha
    have hpos : ((f.excludedValues.filter (fun kv => kv.2)).map (fun kv => kv.1)).length > 0 :=
      (trueKeys_length_pos f.excludedValues).mpr ha
    simp only [date_filter, special_date_filter]
    rw [if_neg h0, if_pos hpos, if_neg h1, if_neg h2, if_neg h3, if_neg h4,
      if_neg h5, if_neg h6, if_neg h7]
  · intro ha
    have hnpos :
        ¬ ((f.excludedValues.filter (fun kv => kv.2)).map (fun kv => kv.1)).length > 0 := by
      rw [gt_iff_lt, trueKeys_length_pos]
      simp [ha]
    simp only [date_filter, special_date_filter]
    rw [if_neg h0, if_neg hnpos]

def c3f : Filter :=
  { filterType := "DATE_FACET", column := "d", columnType := "",
    dateFilterType := "FOO", minValue := none, maxValue := none,
    excludedValues := [("1", false)] }

/-- C3 counterexample: an unrecognized dateFilterType with no truthy
excluded key does not raise; the claim asserts an error regardless of
the contents of excludedValues. -/
theorem unknown_date_filter_no_error :
    date_filter ([] : Table) c3f = Except.ok [] := rfl

def c3f2 : Filter :=
  { filterType := "DATE_FACET", column := "d", columnType := "",
    dateFilterType := "FOO", minValue := none, maxValue := none,
    excludedValues := [("1", true)] }

/-- Witness for the amended C3 at a concrete filter with one truthy
key. -/
theorem unknown_date_filter_conditional_witness :
    c3f2.dateFilterType ≠ "RANGE" ∧
    c3f2.dateFilterType ≠ "YEAR" ∧
    c3f2.dateFilterType ≠ "QUARTER_OF_YEAR" ∧
    c3f2.dateFilterType ≠ "MONTH_OF_YEAR" ∧
    c3f2.dateFilterType ≠ "WEEK_OF_YEAR" ∧
    c3f2.dateFilterType ≠ "DAY_OF_MONTH" ∧
    c3f2.dateFilterType ≠ "DAY_OF_WEEK" ∧
    c3f2.dateFilterType ≠ "HOUR_OF_DAY" ∧
    ((c3f2.excludedValues.any (fun kv => kv.2) = true →
        date_filter ([] : Table) c3f2 = Except.error "Unknown date filter.") ∧
     (c3f2.excludedValues.any (fun kv => kv.2) = false →
        date_filter ([] : Table) c3f2 = Except.ok [])) :=
  ⟨by decide, by decide, by decide, by decide, by decide, by decide, by decide,
    by decide,
    unknown_date_filter_conditional [] c3f2 (by decide) (by decide) (by decide)
      (by decide) (by decide) (by decide) (by decide) (by decide)⟩

/-!
Categorical exclusion (C6): spec-side predicates and the exclusion
properties of alphanum_filter.
-/

/-- Whether the reserved no-value sentinel key carries a true flag. -/
def sentinelTrue (f : Filter) : Bool :=
  f.excludedValues.any (fun kv => kv.1 == noValueKey && kv.2)

/-- Claim-side predicate, following the words of the specification: the
value of the filter column of row r appears among the keys of
excludedValues that carry a true flag, the keys being coerced to
numbers when the column is numerical. -/
def excludedByValueSpec (f : Filter) (r : Row) : Bool :=
  f.excludedValues.any (fun kv =>
    kv.1 ≠ noValueKey && kv.2 &&
      (if f.columnType = "NUMERICAL" then
        (match Row.get r f.column, String.toInt? kv.1 with
         | Cell.num x, some v => x == v
         | _, _ => false)
      else Row.get r f.column == Cell.str kv.1))

lemma parseAll_mem (l : List String) :
    ∀ (ns : List Int), parseAll l = some ns →
      ∀ k ∈ l, ∀ v : Int, String.toInt? k = some v → v ∈ ns := by
  induction l with
  | nil =>
    intro ns _ k hk
    simp at hk
  | cons s rest ih =>
    intro ns h k hk v hv
    cases hs : String.toInt? s with
    | none => simp [parseAll, hs] at h
    | some w =>
      cases hr : parseAll rest with
      | none => simp [parseAll, hs, hr] at h
      | some ws =>
        simp only [parseAll, hs, hr, Option.some.injEq] at h
        subst h
        rcases List.mem_cons.mp hk with rfl | hk2
        · rw [hs] at hv
          cases hv
          exact List.mem_cons_self _ _
        · exact List.mem_cons_of_mem _ (ih ws hr k hk2 v hv)

lemma cell_eq_null_of_isNull (c : Cell) (h : isNullCell c = true) :
    c = Cell.null := by
  cases c with
  | null => rfl
  | num x => simp [isNullCell] at h
  | str s => simp [isNullCell] at h
  | date t => simp [isNullCell] at h

lemma null_passes_num_mask (c : Cell) (h : isNullCell c = true)
    (ns : List Int) : (!cellIsInNums c ns) = true := by
  rw [cell_eq_null_of_isNull c h]
  rfl

lemma null_passes_str_mask (c : Cell) (h : isNullCell c = true)
    (ss : List String) : (!cellIsInStrs c ss) = true := by
  rw [cell_eq_null_of_isNull c h]
  rfl

lemma null_row_membership (df : Table) (f : Filter) (tail : List Cond) (r : Row)
    (htail : tail.all (fun c => c r) = true)
    (hrdf : r ∈ df) (hnull : isNullCell (Row.get r f.column) = true) :
    (r ∈ apply_filter_conditions df
        ((if sentinelTrue f then [fun r => !(isNullCell (Row.get r f.column))] else [])
          ++ tail)
      ↔ sentinelTrue f = false) := by
  rw [mem_apply_filter_conditions, List.all_append]
  cases hst : sentinelTrue f <;> simp [hrdf, htail, hnull]

lemma alphanum_branch_small (df : Table) (f : Filter)
    (hlen : ¬ ((f.excludedValues.filter (fun kv => kv.1 ≠ noValueKey && kv.2)).map
        (fun kv => kv.1)).length > 0) :
    alphanum_filter df f
      = Except.ok
          (if sentinelTrue f then [fun r => !(isNullCell (Row.get r f.column))]
           else []) := by
  simp only [alphanum_filter, sentinelTrue]
  rw [if_neg hlen]

lemma alphanum_branch_str (df : Table) (f : Filter)
    (hlen : ((f.excludedValues.filter (fun kv => kv.1 ≠ noValueKey && kv.2)).map
        (fun kv => kv.1)).length > 0)
    (hnum : ¬ f.columnType = "NUMERICAL") :
    alphanum_filter df f
      = Except.ok
          ((if sentinelTrue f then [fun r => !(isNullCell (Row.get r f.column))]
            else [])
           ++ [fun r => !(cellIsInStrs (Row.get r f.column)
                ((f.excludedValues.filter (fun kv => kv.1 ≠ noValueKey && kv.2)).map
                  (fun kv => kv.1)))]) := by
  simp only [alphanum_filter, sentinelTrue]
  rw [if_pos hlen, if_neg hnum]

lemma alphanum_branch_num (df : Table) (f : Filter) (nums : List Int)
    (hlen : ((f.excludedValues.filter (fun kv => kv.1 ≠ noValueKey && kv.2)).map
        (fun kv => kv.1)).length > 0)
    (hnum : f.columnType = "NUMERICAL")
    (hp : parseNums ((f.excludedValues.filter (fun kv => kv.1 ≠ noValueKey && kv.2)).map
        (fun kv => kv.1)) = Except.ok nums) :
    alphanum_filter df f
      = Except.ok
          ((if sentinelTrue f then [fun r => !(isNullCell (Row.get r f.column))]
            else [])
           ++ [fun r => !(cellIsInNums (Row.get r f.column) nums)]) := by
  simp only [alphanum_filter, sentinelTrue]
  rw [if_pos hlen, if_pos hnum, hp]

lemma alphanum_branch_err (df : Table) (f : Filter) (e : String)
    (hlen : ((f.excludedValues.filter (fun kv => kv.1 ≠ noValueKey && kv.2)).map
        (fun kv => kv.1)).length > 0)
    (hnum : f.columnType = "NUMERICAL")
    (hp : parseNums ((f.excludedValues.filter (fun kv => kv.1 ≠ noValueKey && kv.2)).map
        (fun kv => kv.1)) = Except.error e) :
    alphanum_filter df f = Except.error e := by
  simp only [alphanum_filter]
  rw [if_pos hlen, if_pos hnum, hp]

/-- C6: under an alphanumeric exclusion filter that evaluates without
error, no surviving row carries an excluded value (coerced to numbers
for a numerical column), and a row with a missing value in the filter
column survives exactly when the sentinel key does not carry a true
flag. -/
theorem alphanum_exclusion (df : Table) (f : Filter) (conds : List Cond)
    (hok : alphanum_filter df f = Except.ok conds) :
    (∀ r ∈ apply_filter_conditions df conds, excludedByValueSpec f r = false) ∧
    (∀ r ∈ df, isNullCell (Row.get r f.column) = true →
       (r ∈ apply_filter_conditions df conds ↔ sentinelTrue f = false)) := by
  by_cases hlen : ((f.excludedValues.filter (fun kv => kv.1 ≠ noValueKey && kv.2)).map
      (fun kv => kv.1)).length > 0
  · by_cases hnum : f.columnType = "NUMERICAL"
    · cases hp : parseNums ((f.excludedValues.filter
          (fun kv => kv.1 ≠ noValueKey && kv.2)).map (fun kv => kv.1)) with
      | error e =>
        rw [alphanum_branch_err df f e hlen hnum hp] at hok
        cases hok
      | ok nums =>
        rw [alphanum_branch_num df f nums hlen hnum hp] at hok
        have hc := (Except.ok.inj hok).symm
        subst hc
        constructor
        · intro r hr
          rw [mem_apply_filter_conditions, List.all_append] at hr
          have hmask : (!cellIsInNums (Row.get r f.column) nums) = true := by
            have h2 := hr.2
            rw [Bool.and_eq_true] at h2
            simpa using h2.2
          by_contra hbad
          rw [Bool.not_eq_false, excludedByValueSpec, List.any_eq_true] at hbad
          rcases hbad with ⟨kv, hkv, hp2⟩
          rw [Bool.and_eq_true, Bool.and_eq_true] at hp2
          rcases hp2 with ⟨⟨hne, hflag⟩, hmatch⟩
          rw [if_pos hnum] at hmatch
          have hkE : kv.1 ∈ (f.excludedValues.filter
              (fun kv => kv.1 ≠ noValueKey && kv.2)).map (fun kv => kv.1) :=
            List.mem_map.mpr ⟨kv, List.mem_filter.mpr ⟨hkv, by simp [hne, hflag]⟩, rfl⟩
          have hparse : parseAll ((f.excludedValues.filter
              (fun kv => kv.1 ≠ noValueKey && kv.2)).map (fun kv => kv.1)) = some nums := by
            simp only [parseNums] at hp
            rcases hpa : parseAll ((f.excludedValues.filter
                (fun kv => kv.1 ≠ noValueKey && kv.2)).map (fun kv => kv.1)) with _ | xs <;>
              rw [hpa] at hp
            · cases hp
            · cases hp
              exact hpa
          cases hcell : Row.get r f.column with
          | num x =>
            rw [hcell] at hmatch
            rcases hv : String.toInt? kv.1 with _ | v
            · rw [hv] at hmatch
              simp at hmatch
            · rw [hv] at hmatch
              have hx : x = v := by simpa using hmatch
              have hvmem : v ∈ nums := parseAll_mem _ nums hparse kv.1 hkE v hv
              rw [hcell] at hmask
              have hisin : cellIsInNums (Cell.num x) nums = true := by
                simp only [cellIsInNums, hx]
                exact List.elem_iff.mpr hvmem
              rw [hisin] at hmask
              cases hmask
          | null =>
            rw [hcell] at hmatch
            simp at hmatch
          | str s =>
            rw [hcell] at hmatch
            simp at hmatch
          | date t =>
            rw [hcell] at hmatch
            simp at hmatch
        · intro r hrdf hnull
          exact null_row_membership df f _ r
            (by simp [null_passes_num_mask _ hnull]) hrdf hnull
    · rw [alphanum_branch_str df f hlen hnum] at hok
      have hc := (Except.ok.inj hok).symm
      subst hc
      constructor
      · intro r hr
        rw [mem_apply_filter_conditions, List.all_append] at hr
        have hmask : (!cellIsInStrs (Row.get r f.column)
            ((f.excludedValues.filter (fun kv => kv.1 ≠ noValueKey && kv.2)).map
              (fun kv => kv.1))) = true := by
          have h2 := hr.2
          rw [Bool.and_eq_true] at h2
          simpa using h2.2
        by_contra hbad
        rw [Bool.not_eq_false, excludedByValueSpec, List.any_eq_true] at hbad
        rcases hbad with ⟨kv, hkv, hp2⟩
        rw [Bool.and_eq_true, Bool.and_eq_true] at hp2
        rcases hp2 with ⟨⟨hne, hflag⟩, hmatch⟩
        rw [if_neg hnum] at hmatch
        have hcell : Row.get r f.column = Cell.str kv.1 := by
          exact eq_of_beq hmatch
        have hkE : kv.1 ∈ (f.excludedValues.filter
            (fun kv => kv.1 ≠ noValueKey && kv.2)).map (fun kv => kv.1) :=
          List.mem_map.mpr ⟨kv, List.mem_filter.mpr ⟨hkv, by simp [hne, hflag]⟩, rfl⟩
        rw [hcell] at hmask
        have : cellIsInStrs (Cell.str kv.1) ((f.excludedValues.filter
            (fun kv => kv.1 ≠ noValueKey && kv.2)).map (fun kv => kv.1)) = true := by
          simpa [cellIsInStrs] using hkE
        rw [this] at hmask
        cases hmask
      · intro r hrdf hnull
        exact null_row_membership df f _ r
          (by simp [null_passes_str_mask _ hnull]) hrdf hnull
  · rw [alphanum_branch_small df f hlen] at hok
    have hc := (Except.ok.inj hok).symm
    subst hc
    have hfilt : f.excludedValues.filter (fun kv => kv.1 ≠ noValueKey && kv.2) = [] := by
      rcases hfe : f.excludedValues.filter (fun kv => kv.1 ≠ noValueKey && kv.2) with _ | ⟨kv, rest⟩
      · exact hfe
      · rw [hfe] at hlen
        simp at hlen
    constructor
    · intro r _
      simp only [excludedByValueSpec, List.any_eq_false]
      intro kv hkv
      have hnotin := List.filter_eq_nil_iff.mp hfilt kv hkv
      have h0 : (decide (kv.1 ≠ noValueKey) && kv.2) = false :=
        Bool.eq_false_iff.mpr hnotin
      intro hband
      rw [Bool.and_eq_true, Bool.and_eq_true] at hband
      rw [hband.1.1, hband.1.2] at h0
      simp at h0
    · intro r hrdf hnull
      have := null_row_membership df f [] r rfl hrdf hnull
      simpa using this

def c6df : Table :=
  [[("c", Cell.str "x")], [("c", Cell.str "y")], [("c", Cell.null)]]

def c6f : Filter :=
  { filterType := "ALPHANUM_FACET", column := "c", columnType := "ALPHANUM",
    dateFilterType := "", minValue := none, maxValue := none,
    excludedValues := [(noValueKey, true), ("x", true)] }

def c6conds : List Cond :=
  [fun r => !(isNullCell (Row.get r "c")),
   fun r => !(cellIsInStrs (Row.get r "c") ["x"])]

/-- Witness for C6 at a concrete table and filter excluding the value x
and missing values. -/
theorem alphanum_exclusion_witness :
    alphanum_filter c6df c6f = Except.ok c6conds ∧
    ((∀ r ∈ apply_filter_conditions c6df c6conds,
        excludedByValueSpec c6f r = false) ∧
     (∀ r ∈ c6df, isNullCell (Row.get r c6f.column) = true →
        (r ∈ apply_filter_conditions c6df c6conds ↔ sentinelTrue c6f = false))) :=
  ⟨rfl, alphanum_exclusion c6df c6f c6conds rfl⟩

def c2row : Row :=
  [("d", Cell.date
    { epochMs := 0, year := 2020, month := 1, week := 1, day := 15,
      dayofweek := 3, hour := 0 })]

def c2f : Filter :=
  { filterType := "DATE_FACET", column := "d", columnType := "",
    dateFilterType := "DAY_OF_WEEK", minValue := none, maxValue := none,
    excludedValues := [("3", true)] }

/-- C2: evaluating the code at the failing input.  The row has
day-of-week 3 and the filter excludes key 3 with a true flag, yet the
filter keeps the row: the key is the JSON string 3, the extracted date
part is the integer 3, and Series.isin never equates an integer with a
string, so the day-of-week branch excludes nothing. -/
theorem day_of_week_exclusion_ineffective :
    filterStep [c2row] c2f = Except.ok [c2row] := rfl

/-!
Nonemptiness of the aggregation stages.
-/

lemma sortedKeys_ne_nil (l : List String) (h : l ≠ []) : sortedKeys l ≠ [] := by
  have h1 : (sortedKeys l).length = l.dedup.length :=
    List.length_insertionSort _ _
  intro hc
  rw [hc] at h1
  exact h ((List.dedup_eq_nil l).mp (List.length_eq_zero.mp h1.symm))

lemma sortedNatKeys_ne_nil (l : List Nat) (h : l ≠ []) : sortedNatKeys l ≠ [] := by
  have h1 : (sortedNatKeys l).length = l.dedup.length :=
    List.length_insertionSort _ _
  intro hc
  rw [hc] at h1
  exact h ((List.dedup_eq_nil l).mp (List.length_eq_zero.mp h1.symm))

lemma groupbyAgg_ne_nil (rows : List (String × Int)) (h : rows ≠ []) :
    groupbyAgg rows ≠ [] := by
  unfold groupbyAgg
  simp only [Ne, List.map_eq_nil_iff]
  apply sortedKeys_ne_nil
  simp only [Ne, List.map_eq_nil_iff]
  exact h

lemma collapse_ne_nil (agg : List AggRow) (maxDisplayed : Nat) (groupOthers : Bool)
    (hne : agg ≠ []) (hgd : groupOthers = true ∨ 1 ≤ maxDisplayed) :
    collapse agg maxDisplayed groupOthers ≠ [] := by
  unfold collapse
  by_cases hn : agg.length > maxDisplayed
  · rw [if_pos hn]
    cases groupOthers with
    | true =>
      simp only [if_pos]
      simp only [Ne, List.map_eq_nil_iff]
      apply sortedNatKeys_ne_nil
      simp only [Ne, List.map_eq_nil_iff]
      intro hc
      have h1 := congrArg List.length hc
      rw [List.enum_length, List.length_insertionSort, List.length_nil] at h1
      have := List.length_pos.mpr hne
      omega
    | false =>
      rcases hgd with hgd | hgd
      · cases hgd
      · simp only [if_neg Bool.false_ne_true]
        simp only [Ne, List.map_eq_nil_iff]
        intro hc
        have h1 := congrArg List.length hc
        rw [List.length_take, List.length_insertionSort, List.length_nil] at h1
        omega
  · rw [if_neg hn]
    simp only [Ne, List.map_eq_nil_iff]
    exact hne

/-!
The cumulative law (C1).
-/

lemma reshape_cumulative (pairs : List (String × Int)) :
    ((reshape pairs).getD 0 ("", 0, 0)).2.1 = 0 ∧
    (∀ i, i + 1 < (reshape pairs).length →
      ((reshape pairs).getD (i + 1) ("", 0, 0)).2.1
        = ((reshape pairs).getD i ("", 0, 0)).2.2) ∧
    (∀ i, i < (reshape pairs).length →
      ((reshape pairs).getD i ("", 0, 0)).2.2
          - ((reshape pairs).getD i ("", 0, 0)).2.1
        = ((List.insertionSort valGe pairs).getD i ("", 0)).2) := by
  refine ⟨?_, ?_, ?_⟩
  · by_cases h0 : 0 < pairs.length
    · rw [reshape_getD pairs 0 h0]
      simp
    · have hnil : reshape pairs = [] := by
        have hlen := reshape_length pairs
        have hp : pairs.length = 0 := by omega
        rw [hp] at hlen
        exact List.length_eq_zero.mp hlen
      rw [hnil]
      rfl
  · intro i h
    rw [reshape_length] at h
    rw [reshape_getD pairs (i + 1) h, reshape_getD pairs i (by omega)]
  · intro i h
    rw [reshape_length] at h
    rw [reshape_getD pairs i h]
    have hlen : i < ((List.insertionSort valGe pairs).map (fun p => p.2)).length := by
      rw [List.length_map, List.length_insertionSort]
      exact h
    simp only []
    rw [sum_take_succ_getD _ i hlen]
    rw [getD_in_bounds_map_snd _ i (by rw [List.length_insertionSort]; exact h)]
    ring

/-- The cumulative-law property of the specification, stated of the
output of create_candlestick_df and the descending-sorted aggregated
values that drive it. -/
def CumulativeLawSpec (rows : List (String × Int)) (maxDisplayed : Nat)
    (groupOthers : Bool) : Prop :=
  (create_candlestick_df rows maxDisplayed groupOthers).length
      = (sortedAggregated rows maxDisplayed groupOthers).length ∧
  0 < (create_candlestick_df rows maxDisplayed groupOthers).length ∧
  ((create_candlestick_df rows maxDisplayed groupOthers).getD 0 ("", 0, 0)).2.1 = 0 ∧
  (∀ i, i + 1 < (create_candlestick_df rows maxDisplayed groupOthers).length →
    ((create_candlestick_df rows maxDisplayed groupOthers).getD (i + 1) ("", 0, 0)).2.1
      = ((create_candlestick_df rows maxDisplayed groupOthers).getD i ("", 0, 0)).2.2) ∧
  (∀ i, i < (create_candlestick_df rows maxDisplayed groupOthers).length →
    ((create_candlestick_df rows maxDisplayed groupOthers).getD i ("", 0, 0)).2.2
        - ((create_candlestick_df rows maxDisplayed groupOthers).getD i ("", 0, 0)).2.1
      = ((sortedAggregated rows maxDisplayed groupOthers).getD i ("", 0)).2) ∧
  List.Sorted valGe (sortedAggregated rows maxDisplayed groupOthers)

/-- C1: on every non-empty input and positive display bound, the output
of create_candlestick_df has one row per aggregated category in
descending order of aggregated value; the first range starts at 0, each
subsequent range starts where the previous one ends, and the width of
row i is the aggregated value that drives it. -/
theorem create_candlestick_cumulative (rows : List (String × Int))
    (maxDisplayed : Nat) (groupOthers : Bool)
    (hne : rows ≠ []) (hmd : 1 ≤ maxDisplayed) :
    CumulativeLawSpec rows maxDisplayed groupOthers := by
  have hpairs : collapse (groupbyAgg rows) maxDisplayed groupOthers ≠ [] :=
    collapse_ne_nil _ _ _ (groupbyAgg_ne_nil rows hne) (Or.inr hmd)
  have hppos : 0 < (collapse (groupbyAgg rows) maxDisplayed groupOthers).length :=
    List.length_pos.mpr hpairs
  have hcc := reshape_cumulative (collapse (groupbyAgg rows) maxDisplayed groupOthers)
  refine ⟨?_, ?_, hcc.1, hcc.2.1, hcc.2.2, ?_⟩
  · show (reshape _).length = (List.insertionSort valGe _).length
    rw [reshape_length, List.length_insertionSort]
  · show 0 < (reshape _).length
    rw [reshape_length]
    exact hppos
  · exact List.sorted_insertionSort valGe _

/-- Witness for C1 at a concrete two-category table. -/
theorem create_candlestick_cumulative_witness :
    ([("a", 2), ("b", 5)] : List (String × Int)) ≠ [] ∧ 1 ≤ 3 ∧
    CumulativeLawSpec [("a", 2), ("b", 5)] 3 true :=
  ⟨by decide, by decide,
    create_candlestick_cumulative [("a", 2), ("b", 5)] 3 true (by decide) (by decide)⟩

/-!
Grand-total preservation (C10).
-/

lemma sum_partition {α κ : Type} [DecidableEq κ] (key : α → κ) (g : α → Int) :
    ∀ (ks : List κ) (l : List α), ks.Nodup → (∀ a ∈ l, key a ∈ ks) →
      (ks.map (fun k => ((l.filter (fun a => key a = k)).map g).sum)).sum
        = (l.map g).sum := by
  intro ks
  induction ks with
  | nil =>
    intro l _ hcov
    cases l with
    | nil => simp
    | cons a l => exact absurd (hcov a (List.mem_cons_self a l)) (List.not_mem_nil _)
  | cons k ks ih =>
    intro l hnd hcov
    simp only [List.map_cons, List.sum_cons]
    have hknotin : k ∉ ks := (List.nodup_cons.mp hnd).1
    have hnd2 : ks.Nodup := (List.nodup_cons.mp hnd).2
    have hsplit : (l.map g).sum
        = ((l.filter (fun a => key a = k)).map g).sum
          + ((l.filter (fun a => !(decide (key a = k)))).map g).sum := by
      have hperm := List.filter_append_perm (fun a => decide (key a = k)) l
      have := (hperm.map g).sum_eq
      rw [← this, List.map_append, List.sum_append]
    rw [hsplit]
    congr 1
    have hfeq : ∀ k2 ∈ ks,
        ((l.filter (fun a => key a = k2)).map g).sum
          = (((l.filter (fun a => !(decide (key a = k)))).filter
              (fun a => key a = k2)).map g).sum := by
      intro k2 hk2
      have hk2ne : k2 ≠ k := by
        intro hc
        exact hknotin (hc ▸ hk2)
      have hfilter_eq : l.filter (fun a => key a = k2)
          = (l.filter (fun a => !(decide (key a = k)))).filter
              (fun a => key a = k2) := by
        rw [List.filter_filter]
        apply List.filter_congr
        intro a _
        by_cases ha : key a = k2
        · rw [ha]
          simp [hk2ne]
        · simp [ha]
      rw [hfilter_eq]
    calc (ks.map (fun k2 => ((l.filter (fun a => key a = k2)).map g).sum)).sum
        = (ks.map (fun k2 => (((l.filter (fun a => !(decide (key a = k)))).filter
            (fun a => key a = k2)).map g).sum)).sum := by
          congr 1
          exact List.map_congr_left hfeq
      _ = ((l.filter (fun a => !(decide (key a = k)))).map g).sum := by
          apply ih _ hnd2
          intro a ha
          rcases List.mem_filter.mp ha with ⟨hal, hak⟩
          have := hcov a hal
          rcases List.mem_cons.mp this with hc | hc
          · rw [hc] at hak
            simp at hak
          · exact hc

lemma sortedKeys_nodup (l : List String) : (sortedKeys l).Nodup :=
  (List.perm_insertionSort strLe l.dedup).nodup_iff.mpr l.nodup_dedup

lemma sortedNatKeys_nodup (l : List Nat) : (sortedNatKeys l).Nodup :=
  (List.perm_insertionSort (fun a b : Nat => a ≤ b) l.dedup).nodup_iff.mpr l.nodup_dedup

lemma mem_sortedKeys (l : List String) (x : String) :
    x ∈ sortedKeys l ↔ x ∈ l := by
  unfold sortedKeys
  rw [List.mem_insertionSort, List.mem_dedup]

lemma mem_sortedNatKeys (l : List Nat) (x : Nat) :
    x ∈ sortedNatKeys l ↔ x ∈ l := by
  unfold sortedNatKeys
  rw [List.mem_insertionSort, List.mem_dedup]

lemma groupbyAgg_sum (rows : List (String × Int)) :
    ((groupbyAgg rows).map (fun a => a.sum)).sum = totalValue rows := by
  unfold groupbyAgg totalValue
  rw [List.map_map]
  have hmap : ((fun a : AggRow => a.sum) ∘ (fun c =>
      ({ category := c
         sum := ((rows.filter (fun p => p.1 = c)).map Prod.snd).sum
         count := (rows.filter (fun p => p.1 = c)).length } : AggRow)))
      = fun c => ((rows.filter (fun p => p.1 = c)).map Prod.snd).sum := rfl
  rw [hmap]
  exact sum_partition Prod.fst Prod.snd (sortedKeys (rows.map Prod.fst)) rows
    (sortedKeys_nodup _)
    (fun a ha => (mem_sortedKeys _ _).mpr (List.mem_map.mpr ⟨a, ha, rfl⟩))

lemma collapse_sum_groupOthers (agg : List AggRow) (maxDisplayed : Nat) :
    ((collapse agg maxDisplayed true).map (fun p => p.2)).sum
      = (agg.map (fun a => a.sum)).sum := by
  unfold collapse
  by_cases hn : agg.length > maxDisplayed
  · rw [if_pos hn]
    simp only [if_pos]
    rw [List.map_map]
    have hmap : ((fun p : String × Int => p.2) ∘ (fun rk =>
        (minLabel ((((List.insertionSort countGe agg).enum.map (fun p =>
            (rankClamp maxDisplayed p.1,
             if p.1 < maxDisplayed - 1 then p.2.category else "others",
             p.2.sum))).filter (fun t => t.1 = rk)).map (fun t => t.2.1)),
         ((((List.insertionSort countGe agg).enum.map (fun p =>
            (rankClamp maxDisplayed p.1,
             if p.1 < maxDisplayed - 1 then p.2.category else "others",
             p.2.sum))).filter (fun t => t.1 = rk)).map (fun t => t.2.2)).sum)))
        = fun rk => ((((List.insertionSort countGe agg).enum.map (fun p =>
            (rankClamp maxDisplayed p.1,
             if p.1 < maxDisplayed - 1 then p.2.category else "others",
             p.2.sum))).filter (fun t => t.1 = rk)).map (fun t => t.2.2)).sum := rfl
    rw [hmap]
    rw [sum_partition (fun t : Nat × String × Int => t.1) (fun t => t.2.2) _ _
      (sortedNatKeys_nodup _)
      (fun a ha => (mem_sortedNatKeys _ _).mpr (List.mem_map.mpr ⟨a, ha, rfl⟩))]
    rw [List.map_map]
    have hmap2 : ((fun t : Nat × String × Int => t.2.2) ∘ (fun p : Nat × AggRow =>
        (rankClamp maxDisplayed p.1,
         if p.1 < maxDisplayed - 1 then p.2.category else "others",
         p.2.sum)))
        = (fun a : AggRow => a.sum) ∘ Prod.snd := rfl
    rw [hmap2, ← List.map_map]
    rw [List.enum_map_snd]
    exact ((List.perm_insertionSort countGe agg).map (fun a => a.sum)).sum_eq
  · rw [if_neg hn]
    rw [List.map_map]
    rfl

def c10rows : List (String × Int) :=
  [("a", 1), ("a", 1), ("a", 1), ("b", 1), ("b", 1), ("c", 100)]

lemma reshape_last (pairs : List (String × Int)) (h : pairs ≠ []) :
    ((reshape pairs).getD ((reshape pairs).length - 1) ("", 0, 0)).2.2
      = (pairs.map (fun p => p.2)).sum := by
  have hl : 0 < pairs.length := List.length_pos.mpr h
  rw [reshape_length]
  rw [reshape_getD pairs (pairs.length - 1) (by omega)]
  simp only []
  have hn : pairs.length - 1 + 1 = pairs.length := by omega
  rw [hn]
  have hmlen : ((List.insertionSort valGe pairs).map (fun p => p.2)).length
      = pairs.length := by
    rw [List.length_map, List.length_insertionSort]
  rw [← hmlen, List.take_length]
  exact ((List.perm_insertionSort valGe pairs).map (fun p => p.2)).sum_eq

/-- C10: with group_others the tail collapse merges category sums
without dropping any, so the final range end equals the total of the
value column of the input; without group_others and with more
categories than the display bound the truncation drops value, as the
concrete input c10rows shows. -/
theorem grand_total_preserved (rows : List (String × Int)) (maxDisplayed : Nat)
    (hne : rows ≠ []) :
    ((create_candlestick_df rows maxDisplayed true).getD
        ((create_candlestick_df rows maxDisplayed true).length - 1) ("", 0, 0)).2.2
      = totalValue rows ∧
    ((create_candlestick_df c10rows 2 false).getD
        ((create_candlestick_df c10rows 2 false).length - 1) ("", 0, 0)).2.2
      ≠ totalValue c10rows := by
  constructor
  · have hpairs : collapse (groupbyAgg rows) maxDisplayed true ≠ [] :=
      collapse_ne_nil _ _ _ (groupbyAgg_ne_nil rows hne) (Or.inl rfl)
    show ((reshape _).getD ((reshape _).length - 1) ("", 0, 0)).2.2 = totalValue rows
    rw [reshape_last _ hpairs]
    rw [collapse_sum_groupOthers]
    exact groupbyAgg_sum rows
  · decide

/-- Witness for C10 at a concrete input whose two categories collapse
into one others row. -/
theorem grand_total_preserved_witness :
    ([("a", 2), ("b", 5), ("b", 1)] : List (String × Int)) ≠ [] ∧
    (((create_candlestick_df [("a", 2), ("b", 5), ("b", 1)] 1 true).getD
        ((create_candlestick_df [("a", 2), ("b", 5), ("b", 1)] 1 true).length - 1)
        ("", 0, 0)).2.2
      = totalValue [("a", 2), ("b", 5), ("b", 1)] ∧
     ((create_candlestick_df c10rows 2 false).getD
        ((create_candlestick_df c10rows 2 false).length - 1) ("", 0, 0)).2.2
      ≠ totalValue c10rows) :=
  ⟨by decide, grand_total_preserved [("a", 2), ("b", 5), ("b", 1)] 1 (by decide)⟩

end Candlestick
